import Mathlib

/-!
Shallow embedding of `src/yolo_trainer/cam.py` (class `WebcamApp`, the polling
variant, plus its artifact-store methods).

Modelling conventions:
* A frame is a row-major grid of pixel triples; `cv2.cvtColor` with the
  `BGR2RGB` / `RGB2BGR` codes is channel reversal on every pixel.
* The device environment is a pair of oracles: `openOk n` tells whether the
  n-th `cv2.VideoCapture(url)` call yields an opened capture, and `readFrame n`
  gives the result of the n-th `cap.read()` issued on an opened capture
  (`none` = read failure).
* Real time is modelled by accumulated sleep milliseconds; the `capture_frame`
  busy-wait runs on a 100 ms tick, so its 5 s timeout is 50 ticks.
* The file system is an explicit store of screenshot files and zip archives;
  per-file deletion failures are an oracle `canDelete`.
-/

namespace Cam

/-- One pixel: a channel triple (as stored by OpenCV, order B,G,R or R,G,B). -/
abbrev Pixel := Nat × Nat × Nat

/-- A decoded frame: row-major grid of pixels. -/
abbrev Frame := List (List Pixel)

/-- Channel reversal on one pixel (what `cv2.cvtColor` does per pixel for the
`BGR2RGB` and `RGB2BGR` codes). -/
def swapRB (p : Pixel) : Pixel := (p.2.2, p.2.1, p.1)

/-- `cv2.cvtColor(frame, cv2.COLOR_BGR2RGB)` (cam.py line 82). -/
def bgr2rgb (f : Frame) : Frame := f.map (fun row => row.map swapRB)

/-- `cv2.cvtColor(frame, cv2.COLOR_RGB2BGR)` (cam.py line 143). -/
def rgb2bgr (f : Frame) : Frame := f.map (fun row => row.map swapRB)

/-- Device-environment oracles for `video_reader`. -/
structure CamEnv where
  /-- whether the n-th `cv2.VideoCapture(url)` call opens successfully -/
  openOk : Nat → Bool
  /-- result of the n-th `cap.read()` on an opened capture (`none` = failure) -/
  readFrame : Nat → Option Frame

/-- Thread-local state of the `video_reader` loop. -/
structure ReaderState where
  /-- is the current `cap` opened -/
  capOpen : Bool
  /-- number of `cv2.VideoCapture` calls made so far -/
  opens : Nat
  /-- number of `cap.read()` calls made on an opened capture so far -/
  reads : Nat
  /-- the shared buffer `self.latest_frame` -/
  buf : Option Frame
  /-- accumulated sleep time in milliseconds -/
  timeMs : Nat
  deriving DecidableEq, Repr

/-- One iteration of the `while self.running` loop of `video_reader`
(cam.py lines 53-66): read a frame; on success store it in the shared buffer
under the lock and sleep 30 ms; on failure sleep 1 s, release the capture and
reopen it.  A `cap.read()` on an unopened capture always fails. -/
def readerIter (env : CamEnv) (s : ReaderState) : ReaderState :=
  if s.capOpen then
    match env.readFrame s.reads with
    | some f =>
      { s with reads := s.reads + 1, buf := some f, timeMs := s.timeMs + 30 }
    | none =>
      { s with reads := s.reads + 1, timeMs := s.timeMs + 1000,
               capOpen := env.openOk s.opens, opens := s.opens + 1 }
  else
    { s with timeMs := s.timeMs + 1000,
             capOpen := env.openOk s.opens, opens := s.opens + 1 }

/-- Run `iters` iterations of the `video_reader` loop. -/
def readerLoop (env : CamEnv) : Nat → ReaderState → ReaderState
  | 0, s => s
  | n + 1, s => readerLoop env n (readerIter env s)

/-- Observable outcome of one `video_reader` thread execution. -/
structure ReaderResult where
  /-- final contents of the shared buffer `self.latest_frame` -/
  buf : Option Frame
  /-- total number of `cv2.VideoCapture` calls made -/
  opens : Nat
  /-- whether an opened device handle is still held at thread exit -/
  capOpen : Bool
  /-- whether the thread exited at the initial `if not cap.isOpened(): return` -/
  earlyExit : Bool
  /-- accumulated sleep time in milliseconds -/
  timeMs : Nat
  deriving DecidableEq, Repr

/-- `WebcamApp.video_reader` (cam.py lines 45-68), run until the `running`
flag is observed false after `iters` loop iterations: open the capture; if it
is not opened, print and return immediately; otherwise loop, and on loop exit
release the capture (line 68). -/
def video_reader (env : CamEnv) (iters : Nat) : ReaderResult :=
  if env.openOk 0 then
    let s0 : ReaderState :=
      { capOpen := true, opens := 1, reads := 0, buf := none, timeMs := 0 }
    let s := readerLoop env iters s0
    { buf := s.buf, opens := s.opens, capOpen := false,
      earlyExit := false, timeMs := s.timeMs }
  else
    { buf := none, opens := 1, capOpen := false, earlyExit := true, timeMs := 0 }

/-- The busy-wait of `capture_frame` (cam.py lines 76-78) on a 100 ms tick:
`bufAt t` is the shared buffer as seen at tick `t`; the loop exits at the
first tick where the buffer is non-empty, or at tick `t + r` when the
remaining budget `r` runs out (the 5 s timeout). -/
def captureExitAux (bufAt : Nat → Option Frame) : Nat → Nat → Nat
  | t, 0 => t
  | t, r + 1 =>
    match bufAt t with
    | some _ => t
    | none => captureExitAux bufAt (t + 1) r

/-- Tick at which the `capture_frame` busy-wait exits: 5 s timeout at 100 ms
per tick is a budget of 50 ticks. -/
def captureExit (bufAt : Nat → Option Frame) : Nat :=
  captureExitAux bufAt 0 50

/-- `WebcamApp.capture_frame` (cam.py lines 70-84), with the shared buffer
given as a function of the poll tick: wait for a frame or the timeout, then
return the BGR-to-RGB conversion of the buffered frame, or `None`. -/
def capture_frame (bufAt : Nat → Option Frame) : Option Frame :=
  match bufAt (captureExit bufAt) with
  | some f => some (bgr2rgb f)
  | none => none

/-!  Lock discipline.  Each operation that touches the shared buffer
`self.latest_frame` is transcribed as a list of atomic steps, and a scan
decides whether every buffer access happens while the mutual-exclusion lock
`self.frame_lock` is held. -/

/-- Atomic steps of an operation, as far as the lock and the shared buffer
are concerned. -/
inductive CStep where
  | acquire
  | release
  | readBuf
  | writeBuf
  | other
  deriving DecidableEq, Repr

/-- Scan a step list with the current lock-hold depth `d`; `true` iff every
buffer access (read or write) happens at depth > 0 and no release happens at
depth 0. -/
def lockedOk : List CStep → Nat → Bool
  | [], _ => true
  | CStep.acquire :: rest, d => lockedOk rest (d + 1)
  | CStep.release :: rest, d => (d != 0) && lockedOk rest (d - 1)
  | CStep.readBuf :: rest, d => (d != 0) && lockedOk rest d
  | CStep.writeBuf :: rest, d => (d != 0) && lockedOk rest d
  | CStep.other :: rest, d => lockedOk rest d

/-- Buffer-relevant steps of one successful `video_reader` loop iteration
(cam.py lines 53-66): `cap.read()`, then `with self.frame_lock:` around the
single write `self.latest_frame = frame.copy()`, then the 30 ms sleep. -/
def videoReaderStoreSteps : List CStep :=
  [CStep.other, CStep.acquire, CStep.writeBuf, CStep.release, CStep.other]

/-- Buffer-relevant steps of one `capture_frame` call that performs `polls`
iterations of the busy-wait (cam.py lines 70-84): each iteration reads
`self.latest_frame` in the `while` condition and sleeps; the loop exit reads
the condition once more, then line 80 (`if self.latest_frame is not None`)
and line 82 (`cv2.cvtColor(self.latest_frame, ...)`) each read it again.
No lock acquisition appears anywhere. -/
def captureFrameSteps (polls : Nat) : List CStep :=
  (List.replicate polls [CStep.readBuf, CStep.other]).flatten ++
    [CStep.readBuf, CStep.readBuf, CStep.readBuf]

/-!  Thread lifecycle: `start_video_stream` / `stop_video_stream`. -/

/-- The `self.video_thread` handle: all the lifecycle observes of it is
`is_alive()`. -/
structure ThreadInfo where
  alive : Bool
  deriving DecidableEq, Repr

/-- The `WebcamApp` fields driving the stream lifecycle (cam.py lines 23-26):
`self.running`, `self.video_thread` (absent until first start) and the shared
buffer `self.latest_frame` (absent until the first successful read). -/
structure AppState where
  running : Bool
  video_thread : Option ThreadInfo
  latest_frame : Option Frame
  deriving DecidableEq, Repr

/-- `self.video_thread is not None and self.video_thread.is_alive()`. -/
def threadAlive (s : AppState) : Bool :=
  match s.video_thread with
  | none => false
  | some t => t.alive

/-- The state built by `WebcamApp.__init__` (cam.py lines 23-26). -/
def initState : AppState :=
  { running := false, video_thread := none, latest_frame := none }

/-- `WebcamApp.start_video_stream` (cam.py lines 28-37): if no thread exists
or it is not alive, set `running = True` and spawn a `video_reader` thread.
`deviceOk` says whether the spawned thread's initial `cv2.VideoCapture` opens;
on open failure `video_reader` returns at once (lines 49-51), so the spawned
thread is not alive. -/
def start_video_stream (deviceOk : Bool) (s : AppState) : AppState :=
  if threadAlive s then s
  else { s with running := true, video_thread := some { alive := deviceOk } }

/-- `WebcamApp.stop_video_stream` (cam.py lines 39-43): clear `running`, then
join the thread if it is alive; after the join the thread has finished. -/
def stop_video_stream (s : AppState) : AppState :=
  let s1 := { s with running := false }
  if threadAlive s1 then { s1 with video_thread := some { alive := false } }
  else s1

/-- Operations that can touch the lifecycle state or the shared buffer. -/
inductive AppOp where
  /-- a `start_video_stream()` call -/
  | start
  /-- a `stop_video_stream()` call -/
  | stop
  /-- the background task storing a successfully read frame (lines 62-63) -/
  | storeFrame (f : Frame)
  /-- the state effect of a `capture_frame()` call: implicit start when not
  running (lines 72-73); the buffer is only read -/
  | captureOp
  /-- any artifact operation (`take_screenshot`, `create_zip_download`,
  `clear_screenshots`, ...): none of them writes `self.latest_frame` -/
  | artifactOp
  deriving DecidableEq

/-- One operation's effect on the `WebcamApp` lifecycle state. -/
def appStep (deviceOk : Bool) (s : AppState) : AppOp → AppState
  | AppOp.start => start_video_stream deviceOk s
  | AppOp.stop => stop_video_stream s
  | AppOp.storeFrame f =>
    if s.running then { s with latest_frame := some f } else s
  | AppOp.captureOp =>
    if s.running then s else start_video_stream deviceOk s
  | AppOp.artifactOp => s

/-- Run a sequence of operations from a state. -/
def appRun (deviceOk : Bool) (s : AppState) (ops : List AppOp) : AppState :=
  ops.foldl (appStep deviceOk) s

/-- The value returned by a `capture_frame()` call in state `s`, when no
concurrent write lands during the busy-wait (the buffer is stationary). -/
def appCapture (s : AppState) : Option Frame :=
  capture_frame (fun _ => s.latest_frame)

/-!  Artifact store: screenshots directory and zip-archives directory.
Display formatting abstracts the KB/MB floating-point rendering and
`strftime`: an entry is shown with its name, byte size and raw mtime. -/

/-- A file on disk: name, content bytes, modification time. -/
structure FileEntry where
  name : String
  bytes : List Nat
  mtime : Nat
  deriving DecidableEq, Repr

/-- A zip archive: name, archived entries (member name and copied bytes),
modification time. -/
structure ZipFile where
  name : String
  entries : List (String × List Nat)
  mtime : Nat
  deriving DecidableEq, Repr

/-- Contents of the `screenshots/` and `zip_archives/` directories. -/
structure Store where
  shots : List FileEntry
  zips : List ZipFile
  deriving DecidableEq, Repr

/-- `s` ends with the suffix `suf` (model of a `*.ext` glob match). -/
def hasSuffix (suf s : List Char) : Bool :=
  s.reverse.take suf.length == suf.reverse

/-- `Path(...).glob("*.jpg")` name filter. -/
def isJpg (s : String) : Bool := hasSuffix ".jpg".data s.data

/-- `Path(...).glob("*.zip")` name filter. -/
def isZip (s : String) : Bool := hasSuffix ".zip".data s.data

/-- Files of the screenshots directory matching `*.jpg`. -/
def globJpg (files : List FileEntry) : List FileEntry :=
  files.filter (fun f => isJpg f.name)

/-- Files of the zip directory matching `*.zip`. -/
def globZip (zs : List ZipFile) : List ZipFile :=
  zs.filter (fun z => isZip z.name)

/-- Insert into a list sorted by descending key. -/
def insertByKey {α : Type} (key : α → Nat) (f : α) : List α → List α
  | [] => [f]
  | g :: rest =>
    if key g ≤ key f then f :: g :: rest else g :: insertByKey key f rest

/-- `list.sort(key=lambda x: x.stat().st_mtime, reverse=True)`: sort by
descending key (insertion sort). -/
def sortByKeyDesc {α : Type} (key : α → Nat) : List α → List α
  | [] => []
  | f :: rest => insertByKey key f (sortByKeyDesc key rest)

/-- One display line of `get_screenshots_list` (cam.py lines 99-106), with
size and time rendering abstracted. -/
def formatShot (f : FileEntry) : String :=
  "📸 " ++ f.name ++ " (" ++ toString f.bytes.length ++ " B) - " ++
    toString f.mtime

/-- The entry sequence produced by `get_screenshots_list`: the `*.jpg` files,
newest first. -/
def screenshotEntries (st : Store) : List FileEntry :=
  sortByKeyDesc FileEntry.mtime (globJpg st.shots)

/-- `WebcamApp.get_screenshots_list` (cam.py lines 86-108). -/
def get_screenshots_list (st : Store) : String :=
  let entries := screenshotEntries st
  if entries.isEmpty then "暂无截图"
  else String.intercalate "\n" (entries.map formatShot)

/-- One display line of `get_zip_archives_list` (cam.py lines 118-130), with
size and time rendering abstracted. -/
def formatZip (z : ZipFile) : String :=
  "📦 " ++ z.name ++ " - " ++ toString z.mtime

/-- The entry sequence produced by `get_zip_archives_list`. -/
def zipEntries (st : Store) : List ZipFile :=
  sortByKeyDesc ZipFile.mtime (globZip st.zips)

/-- `WebcamApp.get_zip_archives_list` (cam.py lines 110-132). -/
def get_zip_archives_list (st : Store) : String :=
  let entries := zipEntries st
  if entries.isEmpty then "暂无压缩包"
  else String.intercalate "\n" (entries.map formatZip)

/-- `WebcamApp.take_screenshot` (cam.py lines 134-147): capture a frame (the
buffer is stationary during the call); on success convert it back to BGR,
encode it (`cv2.imwrite`, codec abstracted as `encode`) into
`screenshot_<ts>.jpg`, and return the message and the captured frame. -/
def take_screenshot (encode : Frame → List Nat) (ts : String) (now : Nat)
    (latest : Option Frame) (st : Store) : String × Option Frame × Store :=
  match capture_frame (fun _ => latest) with
  | some frame =>
    let filename := "screenshot_" ++ ts ++ ".jpg"
    let st1 : Store :=
      { st with shots := st.shots ++
          [{ name := filename, bytes := encode (rgb2bgr frame), mtime := now }] }
    ("截图已保存: " ++ filename, some frame, st1)
  | none => ("截图失败", none, st)

/-- `WebcamApp.create_zip_download` (cam.py lines 149-169): if no `*.jpg`
screenshot exists, return no path and the "nothing to archive" message and
change nothing; otherwise write one new zip named `screenshots_<ts>.zip`
containing a copy of every current screenshot's bytes, and return its path,
a message carrying the screenshot count, the refreshed archive listing and
the updated store. -/
def create_zip_download (ts : String) (now : Nat) (st : Store) :
    Option String × String × String × Store :=
  let screenshots := globJpg st.shots
  if screenshots.isEmpty then (none, "没有截图可下载", "", st)
  else
    let zipName := "screenshots_" ++ ts ++ ".zip"
    let z : ZipFile :=
      { name := zipName,
        entries := screenshots.map (fun f => (f.name, f.bytes)),
        mtime := now }
    let st1 : Store := { st with zips := st.zips ++ [z] }
    (some ("zip_archives/" ++ zipName),
     "已创建包含 " ++ toString screenshots.length ++ " 张截图的压缩包",
     get_zip_archives_list st1, st1)

/-- `WebcamApp.clear_screenshots` (cam.py lines 189-204): delete every
`*.jpg` file of the screenshots directory; each file's deletion may fail
(`canDelete` oracle), a failure is logged and skipped without aborting the
loop; return the count of successful deletions. -/
def clear_screenshots (canDelete : String → Bool) (st : Store) :
    String × Store :=
  let screenshots := globJpg st.shots
  if screenshots.isEmpty then ("没有截图需要清理", st)
  else
    let deleted := screenshots.filter (fun f => canDelete f.name)
    let remaining := st.shots.filter (fun f => !(isJpg f.name && canDelete f.name))
    ("已清理 " ++ toString deleted.length ++ " 张截图",
     { st with shots := remaining })

/-- `WebcamApp.clear_zip_archives` (cam.py lines 206-221): same shape as
`clear_screenshots`, over the `*.zip` files of the archive directory. -/
def clear_zip_archives (canDelete : String → Bool) (st : Store) :
    String × Store :=
  let zipFiles := globZip st.zips
  if zipFiles.isEmpty then ("没有压缩包需要清理", st)
  else
    let deleted := zipFiles.filter (fun z => canDelete z.name)
    let remaining := st.zips.filter (fun z => !(isZip z.name && canDelete z.name))
    ("已清理 " ++ toString deleted.length ++ " 个压缩包",
     { st with zips := remaining })

/-!  Helper lemmas. -/

theorem swapRB_swapRB (p : Pixel) : swapRB (swapRB p) = p := rfl

theorem rgb2bgr_bgr2rgb (f : Frame) : rgb2bgr (bgr2rgb f) = f := by
  simp [rgb2bgr, bgr2rgb, List.map_map]
  have h : (swapRB ∘ swapRB) = id := funext swapRB_swapRB
  simp [Function.comp_def] at h ⊢
  simp [h]

theorem readerLoop_allFail (env : CamEnv)
    (hopen : ∀ n, env.openOk n = true) (hread : ∀ n, env.readFrame n = none) :
    ∀ (iters : Nat) (s : ReaderState), s.capOpen = true →
      readerLoop env iters s =
        { capOpen := true, opens := s.opens + iters, reads := s.reads + iters,
          buf := s.buf, timeMs := s.timeMs + 1000 * iters } := by
  intro iters
  induction iters with
  | zero =>
    intro s hs
    cases s
    simp_all [readerLoop]
  | succ n ih =>
    intro s hs
    have hiter : readerIter env s =
        { capOpen := true, opens := s.opens + 1, reads := s.reads + 1,
          buf := s.buf, timeMs := s.timeMs + 1000 } := by
      simp [readerIter, hs, hread s.reads, hopen s.opens]
    rw [readerLoop, hiter, ih _ rfl]
    simp [ReaderState.mk.injEq]
    omega

theorem captureExitAux_of_none (bufAt : Nat → Option Frame) :
    ∀ (r t : Nat), (∀ u, t ≤ u → u ≤ t + r → bufAt u = none) →
      captureExitAux bufAt t r = t + r := by
  intro r
  induction r with
  | zero => intro t h; rfl
  | succ n ih =>
    intro t h
    have ht : bufAt t = none := h t (Nat.le_refl t) (Nat.le_add_right t (n + 1))
    have hrec := ih (t + 1) (fun u h1 h2 => h u (Nat.le_of_succ_le h1) (by omega))
    simp only [captureExitAux, ht]
    omega

theorem captureExitAux_none_imp (bufAt : Nat → Option Frame) :
    ∀ (r t : Nat), bufAt (captureExitAux bufAt t r) = none →
      captureExitAux bufAt t r = t + r := by
  intro r
  induction r with
  | zero => intro t _; rfl
  | succ n ih =>
    intro t h
    cases hb : bufAt t with
    | some f =>
      rw [captureExitAux, hb] at h ⊢
      rw [hb] at h
      exact absurd h (by simp)
    | none =>
      simp only [captureExitAux, hb] at h ⊢
      have hrec := ih (t + 1) h
      omega

/-!  Claim C1.  The claim says an unopenable device makes `video_reader`
retry reopening about once per second indefinitely.  The code instead hits
`if not cap.isOpened(): return` (cam.py lines 49-51): the thread makes its
single initial `cv2.VideoCapture` call and exits at once, with no retry.
The retry-with-reopen loop (lines 55-60) only runs for read failures after a
successful open. -/

/-- Claim C1, counterexample: with a device that never opens and 1000 loop
iterations available, the reader thread exits early having made exactly one
open attempt and slept 0 ms — it does not keep retrying (reopening once per
second) as the claim states. -/
theorem c1_counterexample :
    (video_reader { openOk := fun _ => false, readFrame := fun _ => none } 1000).earlyExit
        = true ∧
    (video_reader { openOk := fun _ => false, readFrame := fun _ => none } 1000).opens
        = 1 ∧
    (video_reader { openOk := fun _ => false, readFrame := fun _ => none } 1000).timeMs
        = 0 := by
  refine ⟨rfl, rfl, rfl⟩

/-- Claim C1, amended: an initial device-open failure is not retried — the
background task exits immediately after its single open attempt (without
crashing the process), the shared buffer stays empty, and `capture()` then
returns "unavailable" (`none`) at the 5-second timeout.  Read failures after
a successful open are the recoverable case: each one sleeps ~1 s and reopens
the device, indefinitely, so after `iters` iterations the task has made
`iters` reopen attempts and slept `1000 * iters` ms. -/
theorem c1_amended (env : CamEnv) (iters : Nat) :
    (env.openOk 0 = false →
      video_reader env iters = { buf := none, opens := 1, capOpen := false,
                                 earlyExit := true, timeMs := 0 } ∧
      capture_frame (fun _ => (video_reader env iters).buf) = none ∧
      captureExit (fun _ => (video_reader env iters).buf) = 50) ∧
    ((∀ n, env.openOk n = true) → (∀ n, env.readFrame n = none) →
      (video_reader env iters).earlyExit = false ∧
      (video_reader env iters).opens = 1 + iters ∧
      (video_reader env iters).timeMs = 1000 * iters ∧
      (video_reader env iters).buf = none) := by
  constructor
  · intro hopen
    have hv : video_reader env iters =
        { buf := none, opens := 1, capOpen := false, earlyExit := true, timeMs := 0 } := by
      simp [video_reader, hopen]
    refine ⟨hv, ?_, ?_⟩
    · rw [hv]; rfl
    · rw [hv]; rfl
  · intro hopen hread
    have hv : video_reader env iters =
        { buf := (readerLoop env iters
              { capOpen := true, opens := 1, reads := 0, buf := none, timeMs := 0 }).buf,
          opens := (readerLoop env iters
              { capOpen := true, opens := 1, reads := 0, buf := none, timeMs := 0 }).opens,
          capOpen := false, earlyExit := false,
          timeMs := (readerLoop env iters
              { capOpen := true, opens := 1, reads := 0, buf := none, timeMs := 0 }).timeMs } := by
      simp [video_reader, hopen 0]
    rw [hv, readerLoop_allFail env hopen hread iters _ rfl]
    simp

/-- Claim C1, witness for the amended theorem at concrete inputs. -/
theorem c1_witness :
    video_reader { openOk := fun _ => false, readFrame := fun _ => none } 7 =
      { buf := none, opens := 1, capOpen := false, earlyExit := true, timeMs := 0 } ∧
    (video_reader { openOk := fun _ => true, readFrame := fun _ => none } 3).opens = 4 := by
  constructor
  · exact ((c1_amended { openOk := fun _ => false, readFrame := fun _ => none } 7).1 rfl).1
  · exact ((c1_amended { openOk := fun _ => true, readFrame := fun _ => none } 3).2
      (fun _ => rfl) (fun _ => rfl)).2.1

/-- Claim C2 (confirmed): if the shared buffer stays empty through the whole
wait, `capture_frame` polls all 50 ticks of 100 ms (exactly the 5-second
timeout, not before) and returns `none`; whenever it returns `none` the full
timeout elapsed; and once a frame is in the buffer at call time, it returns
immediately (exit tick 0, no sleep) with the buffered frame converted
BGR-to-RGB. -/
theorem c2_confirmed (bufAt : Nat → Option Frame) :
    ((∀ t, t ≤ 50 → bufAt t = none) →
      capture_frame bufAt = none ∧ captureExit bufAt = 50) ∧
    (capture_frame bufAt = none → captureExit bufAt = 50) ∧
    (∀ f, bufAt 0 = some f →
      captureExit bufAt = 0 ∧ capture_frame bufAt = some (bgr2rgb f)) := by
  refine ⟨?_, ?_, ?_⟩
  · intro h
    have hexit : captureExit bufAt = 50 := by
      have := captureExitAux_of_none bufAt 50 0 (fun u h1 h2 => h u (by omega))
      simpa [captureExit] using this
    refine ⟨?_, hexit⟩
    rw [capture_frame, hexit, h 50 (Nat.le_refl 50)]
  · intro h
    rw [capture_frame] at h
    cases hb : bufAt (captureExit bufAt) with
    | some f => rw [hb] at h; exact absurd h (by simp)
    | none =>
      have := captureExitAux_none_imp bufAt 50 0 (by simpa [captureExit] using hb)
      simpa [captureExit] using this
  · intro f h
    have hexit : captureExit bufAt = 0 := by
      simp [captureExit, captureExitAux, h]
    exact ⟨hexit, by rw [capture_frame, hexit, h]⟩

/-- Claim C2, witness at concrete buffers: an always-empty buffer makes
`capture_frame` return `none`, and a buffer already holding a frame makes it
return that frame converted BGR-to-RGB. -/
theorem c2_witness :
    capture_frame (fun _ => none) = none ∧
    capture_frame (fun _ => some [[(1, 2, 3)]]) = some (bgr2rgb [[(1, 2, 3)]]) := by
  constructor
  · exact ((c2_confirmed (fun _ => none)).1 (fun t _ => rfl)).1
  · exact ((c2_confirmed (fun _ => some [[(1, 2, 3)]])).2.2 [[(1, 2, 3)]] rfl).2

/-!  Claim C3.  The claim says every read and every write of the shared
buffer holds `self.frame_lock`.  The writer (cam.py lines 62-63) does hold
it, but `capture_frame` reads `self.latest_frame` at lines 77, 80 and 82
with no lock acquisition at all. -/

/-- Claim C3, counterexample: a `capture_frame` call performing three
busy-wait polls accesses the shared buffer with the lock never held — the
lock-discipline scan fails, refuting "every read ... is performed while
holding the mutual-exclusion lock". -/
theorem c3_counterexample :
    lockedOk (captureFrameSteps 3) 0 = false ∧
    CStep.acquire ∉ captureFrameSteps 3 := by
  constructor
  · rfl
  · decide

/-- Claim C3, amended: only the background task's buffer write is performed
under the lock (the `with self.frame_lock:` block around
`self.latest_frame = frame.copy()`); every buffer read made by
`capture_frame` — however many polls it performs — happens without the lock,
and `capture_frame` never even acquires it. -/
theorem c3_amended :
    lockedOk videoReaderStoreSteps 0 = true ∧
    (∀ polls : Nat, CStep.acquire ∉ captureFrameSteps polls ∧
      lockedOk (captureFrameSteps polls) 0 = false) := by
  refine ⟨rfl, fun polls => ⟨?_, ?_⟩⟩
  · intro hmem
    simp only [captureFrameSteps, List.mem_append, List.mem_flatten] at hmem
    rcases hmem with ⟨l, hl, hmem⟩ | hmem
    · rw [List.eq_of_mem_replicate hl] at hmem
      simp at hmem
    · simp at hmem
  · cases polls with
    | zero => rfl
    | succ n =>
      simp only [captureFrameSteps, List.replicate_succ, List.flatten_cons,
        List.cons_append, lockedOk]
      simp

/-- Claim C3, witness for the amended theorem at a concrete poll count. -/
theorem c3_witness :
    lockedOk videoReaderStoreSteps 0 = true ∧
    lockedOk (captureFrameSteps 2) 0 = false :=
  ⟨c3_amended.1, (c3_amended.2 2).2⟩

/-!  Claim C4: lifecycle of the background task under `start_video_stream`
and `stop_video_stream`. -/

theorem appRun_start_stop_alive (deviceOk : Bool) (hd : deviceOk = true) :
    ∀ (ops : List AppOp) (s : AppState),
      (∀ op ∈ ops, op = AppOp.start ∨ op = AppOp.stop) → ops ≠ [] →
      (threadAlive (appRun deviceOk s ops) = true ↔
        ops.getLast? = some AppOp.start) := by
  intro ops
  induction ops with
  | nil => intro s _ hne; exact absurd rfl hne
  | cons a l ih =>
    intro s hops _
    cases l with
    | nil =>
      rcases hops a (List.mem_cons_self a []) with ha | ha <;> subst ha
      · simp only [appRun, List.foldl, appStep, List.getLast?]
        constructor
        · intro _; rfl
        · intro _
          rw [start_video_stream]
          cases hal : threadAlive s with
          | true => simpa using hal
          | false => simp [threadAlive, hd]
      · simp only [appRun, List.foldl, appStep, List.getLast?]
        constructor
        · intro h
          rw [stop_video_stream] at h
          cases hal : threadAlive { s with running := false } with
          | true => rw [hal] at h; simp [threadAlive] at h
          | false => rw [hal] at h; simp at h; rw [h] at hal; simp at hal
        · intro h; simp at h
    | cons b m =>
      have hne2 : b :: m ≠ ([] : List AppOp) := by simp
      have hl := ih (appStep deviceOk s a)
        (fun op hop => hops op (List.mem_cons_of_mem a hop)) hne2
      rw [appRun] at hl ⊢
      simp only [List.foldl] at hl ⊢
      rw [hl]
      constructor
      · intro h; rw [List.getLast?_cons_cons] at *; exact h
      · intro h; rw [List.getLast?_cons_cons] at h; exact h

/-- Claim C4 (confirmed, for a device whose open succeeds so the spawned
task stays alive until told to stop): over every nonempty sequence of
`start_video_stream`/`stop_video_stream` calls from the initial state, the
background task is alive exactly when the last call was a start; a start
when a task is already alive is a no-op (state unchanged); and starting is
idempotent for every state and device. -/
theorem c4_confirmed :
    (∀ ops : List AppOp, (∀ op ∈ ops, op = AppOp.start ∨ op = AppOp.stop) →
      ops ≠ [] →
      (threadAlive (appRun true initState ops) = true ↔
        ops.getLast? = some AppOp.start)) ∧
    (∀ (deviceOk : Bool) (s : AppState), threadAlive s = true →
      start_video_stream deviceOk s = s) ∧
    (∀ (deviceOk : Bool) (s : AppState),
      start_video_stream deviceOk (start_video_stream deviceOk s) =
        start_video_stream deviceOk s) := by
  refine ⟨fun ops h hne => appRun_start_stop_alive true rfl ops initState h hne,
    ?_, ?_⟩
  · intro deviceOk s h
    simp [start_video_stream, h]
  · intro deviceOk s
    cases hal : threadAlive s with
    | true => simp [start_video_stream, hal]
    | false =>
      have hstart : start_video_stream deviceOk s =
          { s with running := true, video_thread := some { alive := deviceOk } } := by
        simp [start_video_stream, hal]
      rw [hstart]
      have hal2 : threadAlive
          { running := true, video_thread := some { alive := deviceOk },
            latest_frame := s.latest_frame } = deviceOk := rfl
      cases deviceOk with
      | true => simp [start_video_stream, hal2]
      | false => simp [start_video_stream, hal2]

/-- Claim C4, witness: a concrete start-stop-start sequence leaves the task
alive, and one more stop leaves it dead. -/
theorem c4_witness :
    threadAlive (appRun true initState [AppOp.start, AppOp.stop, AppOp.start]) = true ∧
    ¬ threadAlive (appRun true initState
        [AppOp.start, AppOp.stop, AppOp.start, AppOp.stop]) = true := by
  constructor
  · exact (c4_confirmed.1 [AppOp.start, AppOp.stop, AppOp.start]
      (by decide) (by decide)).mpr rfl
  · intro h
    have := (c4_confirmed.1 [AppOp.start, AppOp.stop, AppOp.start, AppOp.stop]
      (by decide) (by decide)).mp h
    simp at this

/-- Claim C5 (confirmed): however the `video_reader` thread executes (any
device behaviour, any number of loop iterations before the cleared `running`
flag is observed), at thread exit no opened device handle remains — the
capture is released on the loop-exit path (cam.py line 68) and no handle was
ever acquired on the early-exit path; and `stop_video_stream` clears the
`running` flag and joins: when it returns the task is no longer alive. -/
theorem c5_confirmed :
    (∀ (env : CamEnv) (iters : Nat), (video_reader env iters).capOpen = false) ∧
    (∀ s : AppState, (stop_video_stream s).running = false ∧
      threadAlive (stop_video_stream s) = false) := by
  constructor
  · intro env iters
    rw [video_reader]
    cases env.openOk 0 with
    | true => rfl
    | false => rfl
  · intro s
    rw [stop_video_stream]
    cases hal : threadAlive { s with running := false } with
    | true => exact ⟨rfl, rfl⟩
    | false => exact ⟨rfl, hal⟩

/-!  Sorting and glob helper lemmas. -/

theorem insertByKey_perm {α : Type} (key : α → Nat) (f : α) :
    ∀ l : List α, (insertByKey key f l).Perm (f :: l) := by
  intro l
  induction l with
  | nil => exact List.Perm.refl _
  | cons g rest ih =>
    rw [insertByKey]
    by_cases h : key g ≤ key f
    · rw [if_pos h]
    · rw [if_neg h]
      exact (ih.cons g).trans (List.Perm.swap f g rest)

theorem insertByKey_pairwise {α : Type} (key : α → Nat) (f : α) :
    ∀ l : List α, l.Pairwise (fun a b => key b ≤ key a) →
      (insertByKey key f l).Pairwise (fun a b => key b ≤ key a) := by
  intro l
  induction l with
  | nil => intro _; simp [insertByKey]
  | cons g rest ih =>
    intro h
    rcases List.pairwise_cons.mp h with ⟨hg, hrest⟩
    rw [insertByKey]
    by_cases hle : key g ≤ key f
    · rw [if_pos hle]
      refine List.pairwise_cons.mpr ⟨?_, h⟩
      intro b hb
      rcases List.mem_cons.mp hb with rfl | hb
      · exact hle
      · exact Nat.le_trans (hg b hb) hle
    · rw [if_neg hle]
      refine List.pairwise_cons.mpr ⟨?_, ih hrest⟩
      intro b hb
      rcases List.mem_cons.mp ((insertByKey_perm key f rest).mem_iff.mp hb) with rfl | hb
      · exact Nat.le_of_lt (Nat.lt_of_not_le hle)
      · exact hg b hb

theorem sortByKeyDesc_perm {α : Type} (key : α → Nat) :
    ∀ l : List α, (sortByKeyDesc key l).Perm l := by
  intro l
  induction l with
  | nil => exact List.Perm.refl _
  | cons f rest ih =>
    rw [sortByKeyDesc]
    exact (insertByKey_perm key f (sortByKeyDesc key rest)).trans (ih.cons f)

theorem sortByKeyDesc_pairwise {α : Type} (key : α → Nat) :
    ∀ l : List α, (sortByKeyDesc key l).Pairwise (fun a b => key b ≤ key a) := by
  intro l
  induction l with
  | nil => simp [sortByKeyDesc]
  | cons f rest ih =>
    rw [sortByKeyDesc]
    exact insertByKey_pairwise key f _ ih

theorem isJpg_append (s : String) : isJpg (s ++ ".jpg") = true := by
  rw [isJpg, hasSuffix, String.data_append, List.reverse_append,
    List.take_left' (by simp)]
  exact beq_self_eq_true _

/-!  Claim C6: `create_zip_download`. -/

/-- Claim C6 (confirmed): with no `*.jpg` screenshot present,
`create_zip_download` returns no path, the "nothing to archive" message, and
leaves the store untouched (no archive file created); with at least one
screenshot present it appends exactly one new zip, named
`screenshots_<ts>.zip`, whose entries copy every current screenshot's name
and bytes, leaves the screenshots unchanged, and returns that archive's path
and the screenshot count in the message. -/
theorem c6_confirmed (ts : String) (now : Nat) (st : Store) :
    (globJpg st.shots = [] →
      (create_zip_download ts now st).1 = none ∧
      (create_zip_download ts now st).2.1 = "没有截图可下载" ∧
      (create_zip_download ts now st).2.2.2 = st) ∧
    (globJpg st.shots ≠ [] →
      ∃ z : ZipFile,
        z.name = "screenshots_" ++ ts ++ ".zip" ∧
        z.entries = (globJpg st.shots).map (fun f => (f.name, f.bytes)) ∧
        (create_zip_download ts now st).2.2.2.zips = st.zips ++ [z] ∧
        (create_zip_download ts now st).2.2.2.shots = st.shots ∧
        (create_zip_download ts now st).1 = some ("zip_archives/" ++ z.name) ∧
        (create_zip_download ts now st).2.1 =
          "已创建包含 " ++ toString (globJpg st.shots).length ++ " 张截图的压缩包") := by
  constructor
  · intro h
    refine ⟨?_, ?_, ?_⟩ <;> simp [create_zip_download, h]
  · intro h
    have hE : (globJpg st.shots).isEmpty = false := by
      cases hg : globJpg st.shots with
      | nil => exact absurd hg h
      | cons a l => rfl
    refine ⟨{ name := "screenshots_" ++ ts ++ ".zip",
              entries := (globJpg st.shots).map (fun f => (f.name, f.bytes)),
              mtime := now }, rfl, rfl, ?_, ?_, ?_, ?_⟩ <;>
      simp [create_zip_download, hE]

/-- Claim C6, witness: the empty store yields the "nothing to archive"
result, and a store with one screenshot yields an archive of count 1. -/
theorem c6_witness :
    (create_zip_download "t" 9 { shots := [], zips := [] }).1 = none ∧
    (create_zip_download "t" 9
        { shots := [{ name := "a.jpg", bytes := [5], mtime := 1 }], zips := [] }).2.1 =
      "已创建包含 " ++ toString 1 ++ " 张截图的压缩包" := by
  constructor
  · exact ((c6_confirmed "t" 9 { shots := [], zips := [] }).1 rfl).1
  · have h := (c6_confirmed "t" 9
      { shots := [{ name := "a.jpg", bytes := [5], mtime := 1 }], zips := [] }).2
      (by decide)
    rcases h with ⟨z, _, _, _, _, _, hmsg⟩
    exact hmsg

/-!  Claim C7: `clear_screenshots` / `clear_zip_archives`. -/

/-- Claim C7 (confirmed): when screenshots exist, `clear_screenshots`
attempts every `*.jpg` file, returns the count of successful deletions in
its message, removes exactly the matching files whose deletion succeeds,
and keeps both the files whose deletion fails (a failure does not abort the
rest) and the non-matching files; `clear_zip_archives` behaves the same on
`*.zip` files; and after saving N screenshots (all `*.jpg`, all deletable),
clearing deletes exactly N files, empties the directory, and a subsequent
`get_screenshots_list` returns the empty placeholder. -/
theorem c7_confirmed (canDelete : String → Bool) (st : Store) :
    (globJpg st.shots ≠ [] →
      (clear_screenshots canDelete st).1 =
        "已清理 " ++ toString ((globJpg st.shots).filter
          (fun f => canDelete f.name)).length ++ " 张截图" ∧
      (∀ f ∈ globJpg st.shots, canDelete f.name = true →
        f ∉ (clear_screenshots canDelete st).2.shots) ∧
      (∀ f ∈ st.shots, canDelete f.name = false →
        f ∈ (clear_screenshots canDelete st).2.shots) ∧
      (∀ f ∈ st.shots, isJpg f.name = false →
        f ∈ (clear_screenshots canDelete st).2.shots)) ∧
    (globZip st.zips ≠ [] →
      (clear_zip_archives canDelete st).1 =
        "已清理 " ++ toString ((globZip st.zips).filter
          (fun z => canDelete z.name)).length ++ " 个压缩包" ∧
      (∀ z ∈ globZip st.zips, canDelete z.name = true →
        z ∉ (clear_zip_archives canDelete st).2.zips)) ∧
    ((∀ f ∈ st.shots, isJpg f.name = true) →
      (∀ f ∈ st.shots, canDelete f.name = true) → st.shots ≠ [] →
      (clear_screenshots canDelete st).1 =
        "已清理 " ++ toString st.shots.length ++ " 张截图" ∧
      (clear_screenshots canDelete st).2.shots = [] ∧
      get_screenshots_list (clear_screenshots canDelete st).2 = "暂无截图") := by
  refine ⟨?_, ?_, ?_⟩
  · intro h
    have hE : (globJpg st.shots).isEmpty = false := by
      cases hg : globJpg st.shots with
      | nil => exact absurd hg h
      | cons a l => rfl
    have hclear : clear_screenshots canDelete st =
        ("已清理 " ++ toString ((globJpg st.shots).filter
            (fun f => canDelete f.name)).length ++ " 张截图",
         { st with shots := st.shots.filter (fun f => !(isJpg f.name && canDelete f.name)) }) := by
      simp only [clear_screenshots, hE, Bool.false_eq_true, if_false]
    rw [hclear]
    refine ⟨rfl, ?_, ?_, ?_⟩
    · intro f hf hdel hmem
      rcases List.mem_filter.mp hmem with ⟨_, hp⟩
      rcases List.mem_filter.mp hf with ⟨_, hjpg⟩
      rw [hjpg, hdel] at hp
      simp at hp
    · intro f hf hdel
      exact List.mem_filter.mpr ⟨hf, by rw [hdel]; simp⟩
    · intro f hf hjpg
      exact List.mem_filter.mpr ⟨hf, by rw [hjpg]; simp⟩
  · intro h
    have hE : (globZip st.zips).isEmpty = false := by
      cases hg : globZip st.zips with
      | nil => exact absurd hg h
      | cons a l => rfl
    have hclear : clear_zip_archives canDelete st =
        ("已清理 " ++ toString ((globZip st.zips).filter
            (fun z => canDelete z.name)).length ++ " 个压缩包",
         { st with zips := st.zips.filter (fun z => !(isZip z.name && canDelete z.name)) }) := by
      simp only [clear_zip_archives, hE, Bool.false_eq_true, if_false]
    rw [hclear]
    refine ⟨rfl, ?_⟩
    intro z hz hdel hmem
    rcases List.mem_filter.mp hmem with ⟨_, hp⟩
    rcases List.mem_filter.mp hz with ⟨_, hzip⟩
    rw [hzip, hdel] at hp
    simp at hp
  · intro hjpg hdel hne
    have hglob : globJpg st.shots = st.shots :=
      List.filter_eq_self.mpr (fun f hf => hjpg f hf)
    have hE : (globJpg st.shots).isEmpty = false := by
      rw [hglob]
      cases hg : st.shots with
      | nil => exact absurd hg hne
      | cons a l => rfl
    have hcount : (globJpg st.shots).filter (fun f => canDelete f.name) = st.shots := by
      rw [hglob]
      exact List.filter_eq_self.mpr (fun f hf => hdel f hf)
    have hrem : st.shots.filter (fun f => !(isJpg f.name && canDelete f.name)) = [] := by
      refine List.filter_eq_nil_iff.mpr ?_
      intro f hf
      simp [hjpg f hf, hdel f hf]
    have hclear : clear_screenshots canDelete st =
        ("已清理 " ++ toString st.shots.length ++ " 张截图",
         { st with shots := [] }) := by
      simp only [clear_screenshots, hE, Bool.false_eq_true, if_false, hcount, hrem]
    rw [hclear]
    exact ⟨rfl, rfl, rfl⟩

/-- Claim C7, witness: a store with two screenshots, one of which fails to
delete, reports one successful deletion and keeps the failing file; a store
with two deletable screenshots is fully cleared and then lists the empty
placeholder. -/
theorem c7_witness :
    (clear_screenshots (fun n => n != "b.jpg")
        { shots := [{ name := "a.jpg", bytes := [], mtime := 1 },
                    { name := "b.jpg", bytes := [], mtime := 2 }], zips := [] }).1 =
      "已清理 " ++ toString 1 ++ " 张截图" ∧
    ({ name := "b.jpg", bytes := [], mtime := 2 } : FileEntry) ∈
      (clear_screenshots (fun n => n != "b.jpg")
        { shots := [{ name := "a.jpg", bytes := [], mtime := 1 },
                    { name := "b.jpg", bytes := [], mtime := 2 }], zips := [] }).2.shots ∧
    get_screenshots_list (clear_screenshots (fun _ => true)
        { shots := [{ name := "a.jpg", bytes := [], mtime := 1 },
                    { name := "b.jpg", bytes := [], mtime := 2 }], zips := [] }).2 =
      "暂无截图" := by
  refine ⟨?_, ?_, ?_⟩
  · exact ((c7_confirmed (fun n => n != "b.jpg")
      { shots := [{ name := "a.jpg", bytes := [], mtime := 1 },
                  { name := "b.jpg", bytes := [], mtime := 2 }], zips := [] }).1
      (by decide)).1
  · exact ((c7_confirmed (fun n => n != "b.jpg")
      { shots := [{ name := "a.jpg", bytes := [], mtime := 1 },
                  { name := "b.jpg", bytes := [], mtime := 2 }], zips := [] }).1
      (by decide)).2.2.1 { name := "b.jpg", bytes := [], mtime := 2 }
      (by decide) (by decide)
  · exact ((c7_confirmed (fun _ => true)
      { shots := [{ name := "a.jpg", bytes := [], mtime := 1 },
                  { name := "b.jpg", bytes := [], mtime := 2 }], zips := [] }).2.2
      (by decide) (by decide) (by decide)).2.2

/-!  Claim C8: screenshot round-trip. -/

/-- Claim C8 (confirmed): with a lossless model of the JPEG codec
(`decode (encode x) = x`, standing for "up to lossy-encoding tolerance") and
a fresh timestamp (no existing screenshot already bears the generated name),
`take_screenshot` on a buffer holding frame `f` appends exactly one file
named `screenshot_<ts>.jpg`; that name occurs exactly once in the subsequent
`get_screenshots_list` entry sequence; decoding the saved bytes gives back
the original buffered (BGR) frame — the BGR-to-RGB conversion done at
capture is inverted by the RGB-to-BGR conversion before writing — and the
call returns the captured RGB frame. -/
theorem c8_confirmed (encode : Frame → List Nat) (decode : List Nat → Frame)
    (ts : String) (now : Nat) (f : Frame) (st : Store)
    (hcodec : ∀ x, decode (encode x) = x)
    (hfresh : ∀ g ∈ st.shots, g.name ≠ "screenshot_" ++ ts ++ ".jpg") :
    ∃ e : FileEntry,
      (take_screenshot encode ts now (some f) st).2.2.shots = st.shots ++ [e] ∧
      e.name = "screenshot_" ++ ts ++ ".jpg" ∧
      (screenshotEntries (take_screenshot encode ts now (some f) st).2.2).countP
        (fun g => g.name == "screenshot_" ++ ts ++ ".jpg") = 1 ∧
      decode e.bytes = f ∧
      bgr2rgb (decode e.bytes) = bgr2rgb f ∧
      (take_screenshot encode ts now (some f) st).2.1 = some (bgr2rgb f) := by
  have hcap : capture_frame (fun _ => some f) = some (bgr2rgb f) := by
    simp [capture_frame, captureExit, captureExitAux]
  have hts : take_screenshot encode ts now (some f) st =
      ("截图已保存: " ++ ("screenshot_" ++ ts ++ ".jpg"), some (bgr2rgb f),
       { st with shots := st.shots ++
          [{ name := "screenshot_" ++ ts ++ ".jpg",
             bytes := encode (rgb2bgr (bgr2rgb f)), mtime := now }] }) := by
    simp only [take_screenshot, hcap]
  have hdec : decode (encode (rgb2bgr (bgr2rgb f))) = f := by
    rw [hcodec, rgb2bgr_bgr2rgb]
  refine ⟨{ name := "screenshot_" ++ ts ++ ".jpg",
            bytes := encode (rgb2bgr (bgr2rgb f)), mtime := now },
    by rw [hts], rfl, ?_, hdec, by rw [hdec], by rw [hts]⟩
  rw [hts]
  have hperm := sortByKeyDesc_perm FileEntry.mtime
    (globJpg (st.shots ++
      [{ name := "screenshot_" ++ ts ++ ".jpg",
         bytes := encode (rgb2bgr (bgr2rgb f)), mtime := now }]))
  rw [screenshotEntries]
  rw [hperm.countP_eq]
  have hsplit : globJpg (st.shots ++
      [{ name := "screenshot_" ++ ts ++ ".jpg",
         bytes := encode (rgb2bgr (bgr2rgb f)), mtime := now }]) =
      globJpg st.shots ++ globJpg
        [{ name := "screenshot_" ++ ts ++ ".jpg",
           bytes := encode (rgb2bgr (bgr2rgb f)), mtime := now }] :=
    List.filter_append _ _
  rw [hsplit, List.countP_append]
  have h0 : (globJpg st.shots).countP
      (fun g => g.name == "screenshot_" ++ ts ++ ".jpg") = 0 := by
    refine List.countP_eq_zero.mpr ?_
    intro g hg
    have hmem : g ∈ st.shots := List.mem_of_mem_filter hg
    simp [hfresh g hmem]
  have h1 : globJpg
      [{ name := "screenshot_" ++ ts ++ ".jpg",
         bytes := encode (rgb2bgr (bgr2rgb f)), mtime := now }] =
      [{ name := "screenshot_" ++ ts ++ ".jpg",
         bytes := encode (rgb2bgr (bgr2rgb f)), mtime := now }] := by
    simp [globJpg, List.filter, isJpg_append ("screenshot_" ++ ts)]
  rw [h0, h1]
  simp [List.countP_cons]

/-- Claim C8, witness: a concrete injective codec (via `Encodable`), a fresh
timestamp and a one-pixel frame; applying the round-trip theorem yields the
saved entry. -/
theorem c8_witness :
    ∃ e : FileEntry,
      (take_screenshot (fun x => [Encodable.encode x]) "T" 5
          (some [[(1, 2, 3)]]) { shots := [], zips := [] }).2.2.shots = [] ++ [e] ∧
      e.name = "screenshot_" ++ "T" ++ ".jpg" ∧
      (screenshotEntries (take_screenshot (fun x => [Encodable.encode x]) "T" 5
          (some [[(1, 2, 3)]]) { shots := [], zips := [] }).2.2).countP
        (fun g => g.name == "screenshot_" ++ "T" ++ ".jpg") = 1 ∧
      (fun l => match l with
        | [n] => (Encodable.decode n).getD []
        | _ => ([] : Frame)) e.bytes = [[(1, 2, 3)]] ∧
      bgr2rgb ((fun l => match l with
        | [n] => (Encodable.decode n).getD []
        | _ => ([] : Frame)) e.bytes) = bgr2rgb [[(1, 2, 3)]] ∧
      (take_screenshot (fun x => [Encodable.encode x]) "T" 5
          (some [[(1, 2, 3)]]) { shots := [], zips := [] }).2.1 =
        some (bgr2rgb [[(1, 2, 3)]]) := by
  refine c8_confirmed (fun x => [Encodable.encode x])
    (fun l => match l with
      | [n] => (Encodable.decode n).getD []
      | _ => ([] : Frame)) "T" 5 [[(1, 2, 3)]] { shots := [], zips := [] }
    (fun x => by simp [Encodable.encodek]) (fun g hg => absurd hg (by simp))

/-!  Claim C9: `get_screenshots_list`. -/

/-- Claim C9 (confirmed): for every state of the screenshots directory the
listing's entry sequence is finite, sorted newest-first by modification time
(pairwise descending mtime), and is exactly the `*.jpg` files (a permutation
of the glob); when no screenshot matches, the placeholder string is
returned, otherwise the formatted, newline-joined entries. -/
theorem c9_confirmed (st : Store) :
    (screenshotEntries st).Pairwise (fun a b => b.mtime ≤ a.mtime) ∧
    (screenshotEntries st).Perm (globJpg st.shots) ∧
    (globJpg st.shots = [] → get_screenshots_list st = "暂无截图") ∧
    (globJpg st.shots ≠ [] →
      get_screenshots_list st =
        String.intercalate "\n" ((screenshotEntries st).map formatShot)) := by
  refine ⟨sortByKeyDesc_pairwise FileEntry.mtime (globJpg st.shots),
    sortByKeyDesc_perm FileEntry.mtime (globJpg st.shots), ?_, ?_⟩
  · intro h
    simp [get_screenshots_list, screenshotEntries, h, sortByKeyDesc]
  · intro h
    have hne : screenshotEntries st ≠ [] := by
      intro hnil
      have hp : ([] : List FileEntry).Perm (globJpg st.shots) :=
        hnil ▸ sortByKeyDesc_perm FileEntry.mtime (globJpg st.shots)
      exact h (List.Perm.eq_nil hp.symm)
    have hE : (screenshotEntries st).isEmpty = false := by
      cases hg : screenshotEntries st with
      | nil => exact absurd hg hne
      | cons a l => rfl
    simp only [get_screenshots_list, hE, Bool.false_eq_true, if_false]

/-- Claim C9, witness: the empty store lists the placeholder; a store with
two out-of-order screenshots lists the formatted entries. -/
theorem c9_witness :
    get_screenshots_list { shots := [], zips := [] } = "暂无截图" ∧
    get_screenshots_list
        { shots := [{ name := "a.jpg", bytes := [], mtime := 1 },
                    { name := "b.jpg", bytes := [], mtime := 5 }], zips := [] } =
      String.intercalate "\n" ((screenshotEntries
        { shots := [{ name := "a.jpg", bytes := [], mtime := 1 },
                    { name := "b.jpg", bytes := [], mtime := 5 }], zips := [] }).map
        formatShot) := by
  constructor
  · exact (c9_confirmed { shots := [], zips := [] }).2.2.1 rfl
  · exact (c9_confirmed
      { shots := [{ name := "a.jpg", bytes := [], mtime := 1 },
                  { name := "b.jpg", bytes := [], mtime := 5 }], zips := [] }).2.2.2
      (by decide)

/-!  Claim C10: the shared buffer is monotone. -/

theorem start_keeps_frame (deviceOk : Bool) (s : AppState) :
    (start_video_stream deviceOk s).latest_frame = s.latest_frame := by
  rw [start_video_stream]
  by_cases hal : threadAlive s = true
  · rw [if_pos hal]
  · rw [if_neg hal]

theorem stop_keeps_frame (s : AppState) :
    (stop_video_stream s).latest_frame = s.latest_frame := by
  rw [stop_video_stream]
  by_cases hal : threadAlive { s with running := false } = true
  · rw [if_pos hal]
  · rw [if_neg hal]

theorem appStep_keeps_frame (deviceOk : Bool) (s : AppState) (op : AppOp)
    (h : s.latest_frame ≠ none) : (appStep deviceOk s op).latest_frame ≠ none := by
  cases op with
  | start => rw [appStep, start_keeps_frame]; exact h
  | stop => rw [appStep, stop_keeps_frame]; exact h
  | storeFrame f =>
    rw [appStep]
    by_cases hr : s.running = true
    · rw [if_pos hr]; simp
    · rw [if_neg hr]; exact h
  | captureOp =>
    rw [appStep]
    by_cases hr : s.running = true
    · rw [if_pos hr]; exact h
    · rw [if_neg hr, start_keeps_frame]; exact h
  | artifactOp => exact h

/-- Claim C10 (confirmed): the shared buffer starts absent; no operation —
start, stop, a background-task store, a capture (with its implicit start) or
an artifact operation — ever takes it from present back to absent, and a
reader-loop iteration (including the reconnect path) never clears it; and
once a frame is stored, a `capture_frame` call returns it (converted
BGR-to-RGB) whatever the running flag, even after the stream stopped. -/
theorem c10_confirmed :
    initState.latest_frame = none ∧
    (∀ (deviceOk : Bool) (ops : List AppOp) (s : AppState),
      s.latest_frame ≠ none → (appRun deviceOk s ops).latest_frame ≠ none) ∧
    (∀ (env : CamEnv) (s : ReaderState), s.buf ≠ none →
      (readerIter env s).buf ≠ none) ∧
    (∀ (s : AppState) (f : Frame), s.latest_frame = some f →
      appCapture s = some (bgr2rgb f)) := by
  refine ⟨rfl, ?_, ?_, ?_⟩
  · intro deviceOk ops
    induction ops with
    | nil => intro s h; exact h
    | cons a l ih =>
      intro s h
      simp only [appRun, List.foldl_cons] at ih ⊢
      exact ih (appStep deviceOk s a) (appStep_keeps_frame deviceOk s a h)
  · intro env s h
    rw [readerIter]
    by_cases hc : s.capOpen = true
    · rw [if_pos hc]
      cases hr : env.readFrame s.reads with
      | some f => simp
      | none => simpa using h
    · rw [if_neg hc]
      simpa using h
  · intro s f h
    have hexit : captureExit (fun _ => s.latest_frame) = 0 := by
      simp [captureExit, captureExitAux, h]
    simp [appCapture, capture_frame, hexit, h]

/-- Claim C10, witness: after stop and an artifact operation the stored
frame survives, and a capture on a stopped stream still returns it. -/
theorem c10_witness :
    (appRun true
        { running := true, video_thread := some { alive := true },
          latest_frame := some [[(1, 2, 3)]] }
        [AppOp.stop, AppOp.artifactOp]).latest_frame ≠ none ∧
    appCapture
        { running := false, video_thread := none,
          latest_frame := some [[(1, 2, 3)]] } = some (bgr2rgb [[(1, 2, 3)]]) := by
  constructor
  · exact c10_confirmed.2.1 true [AppOp.stop, AppOp.artifactOp]
      { running := true, video_thread := some { alive := true },
        latest_frame := some [[(1, 2, 3)]] } (by simp)
  · exact c10_confirmed.2.2.2
      { running := false, video_thread := none,
        latest_frame := some [[(1, 2, 3)]] } [[(1, 2, 3)]] rfl

end Cam
